import Mathlib

/-!
Verification of the council session engine: a shallow embedding of the
role allocator (`council/hats.py`), the retrying chat client
(`services/openrouter.py`), the moderator helpers (`council/moderator.py`)
and the session orchestrator (`council/session.py`), together with
theorems settling the specification claims.  Nondeterministic inputs of
the Python code (provider responses, `random.shuffle`, `random.choice`,
externally raised stop/summarize flags) are passed in explicitly as
oracle arguments.
-/

/- ================= council/hats.py ================= -/

/-- `HatColor` enum from `council/hats.py`. -/
inductive HatColor
  | white
  | red
  | black
  | yellow
  | green
deriving DecidableEq, Repr

/-- Display data of one hat from `HAT_DEFINITIONS` (the long `instruction`
prompt text is out of scope as prompt content). -/
structure HatInfo where
  color : String
  emoji : String
  name : String
  description : String
deriving DecidableEq, Repr

/-- `HAT_DEFINITIONS` table (display fields). -/
def HAT_DEFINITIONS : HatColor → HatInfo
  | HatColor.white => { color := "white", emoji := "⚪", name := "白帽", description := "事實與數據" }
  | HatColor.red => { color := "red", emoji := "🔴", name := "紅帽", description := "情感與直覺" }
  | HatColor.black => { color := "black", emoji := "⚫", name := "黑帽", description := "批判與風險" }
  | HatColor.yellow => { color := "yellow", emoji := "🟡", name := "黃帽", description := "樂觀與價值" }
  | HatColor.green => { color := "green", emoji := "🟢", name := "綠帽", description := "創意與替代方案" }

/-- `MEMBER_HATS`: all five hats, in declaration order. -/
def MEMBER_HATS : List HatColor :=
  [HatColor.white, HatColor.red, HatColor.black, HatColor.yellow, HatColor.green]

/-- `FIRST_SPEAKER_HATS`: hats allowed for the very first speaker. -/
def FIRST_SPEAKER_HATS : List HatColor := [HatColor.white, HatColor.green]

/-- State of the `HatManager` dataclass: usage counters and the remaining
pool (`available_hats`). -/
structure HatManager where
  hat_counts : HatColor → Nat
  available_hats : List HatColor

/-- A freshly constructed `HatManager()`: all counters zero and the
default-empty `available_hats` list. -/
def HatManager.init : HatManager :=
  { hat_counts := fun _ => 0, available_hats := [] }

/-- `HatManager.reset`: zero the counters and refill the pool. -/
def HatManager.reset (_m : HatManager) : HatManager :=
  { hat_counts := fun _ => 0, available_hats := MEMBER_HATS }

/-- The refill at the top of `assign_hat` (`if not self.available_hats:
self.available_hats = list(self.MEMBER_HATS)`). -/
def refillIfEmpty (l : List HatColor) : List HatColor :=
  if l.isEmpty then MEMBER_HATS else l

/-- Pool-refill and candidate computation of `assign_hat` (lines 131-143 of
`council/hats.py`): the possibly refilled `available_hats` paired with the
candidate list the random draw picks from.  For a first speaker the
candidates are restricted to WHITE/GREEN, with a forced refill when the
remaining pool holds neither. -/
def assignCandidates (m : HatManager) (is_first_speaker : Bool) :
    List HatColor × List HatColor :=
  if is_first_speaker then
    if ((refillIfEmpty m.available_hats).filter
        (fun h => FIRST_SPEAKER_HATS.contains h)).isEmpty then
      (MEMBER_HATS, MEMBER_HATS.filter (fun h => FIRST_SPEAKER_HATS.contains h))
    else
      (refillIfEmpty m.available_hats,
        (refillIfEmpty m.available_hats).filter (fun h => FIRST_SPEAKER_HATS.contains h))
  else
    (refillIfEmpty m.available_hats, refillIfEmpty m.available_hats)

/-- `HatManager.assign_hat`.  `randIdx` stands for the draw of
`random.choice(candidates)`: the element at index `randIdx % length` is
selected (the candidate list is proved nonempty in `assignCandidates_ne_nil`,
so the `getD` default is never used).  The selected hat is removed from the
pool and its counter incremented. -/
def HatManager.assign_hat (m : HatManager) (is_first_speaker : Bool) (randIdx : Nat) :
    HatColor × HatManager :=
  let p := assignCandidates m is_first_speaker
  let selected := p.2.getD (randIdx % p.2.length) HatColor.white
  (selected,
    { hat_counts := fun h => if h = selected then m.hat_counts h + 1 else m.hat_counts h,
      available_hats := p.1.erase selected })

/-- `HatManager.get_hat_info`. -/
def HatManager.get_hat_info (_m : HatManager) (hat : HatColor) : HatInfo :=
  HAT_DEFINITIONS hat

/-- `HatManager.get_unused_hats`. -/
def HatManager.get_unused_hats (m : HatManager) : List HatColor :=
  MEMBER_HATS.filter (fun h => m.hat_counts h == 0)

/-- `HatManager.get_distribution_summary`. -/
def HatManager.get_distribution_summary (m : HatManager) : String :=
  String.intercalate " | "
    (MEMBER_HATS.map (fun hat =>
      (HAT_DEFINITIONS hat).emoji ++ " " ++ (HAT_DEFINITIONS hat).name ++ ": "
        ++ toString (m.hat_counts hat) ++ "次"))

/-- Folding a list of `assign_hat` calls (flag, random index), collecting
the returned hats. -/
def assignRun (m : HatManager) : List (Bool × Nat) → List HatColor × HatManager
  | [] => ([], m)
  | c :: rest =>
    let r := m.assign_hat c.1 c.2
    let rr := assignRun r.2 rest
    (r.1 :: rr.1, rr.2)

/-- Observable operations on a `HatManager`, for the reset-vs-fresh
equivalence. -/
inductive HatOp
  | assign : Bool → Nat → HatOp
  | unused : HatOp
  | distribution : HatOp

/-- Observations produced by `HatOp`s. -/
inductive HatObs
  | hat : HatColor → HatObs
  | hats : List HatColor → HatObs
  | text : String → HatObs
deriving DecidableEq

/-- Run a sequence of observable operations against a `HatManager`. -/
def runHatOps (m : HatManager) : List HatOp → List HatObs
  | [] => []
  | HatOp.assign f idx :: rest =>
    let r := m.assign_hat f idx
    HatObs.hat r.1 :: runHatOps r.2 rest
  | HatOp.unused :: rest => HatObs.hats m.get_unused_hats :: runHatOps m rest
  | HatOp.distribution :: rest => HatObs.text m.get_distribution_summary :: runHatOps m rest

/- Helper lemmas about the allocator. -/

theorem getD_mod_mem {α : Type} (l : List α) (i : Nat) (d : α) (h : l ≠ []) :
    l.getD (i % l.length) d ∈ l := by
  have hlen : 0 < l.length := List.length_pos.mpr h
  have hlt : i % l.length < l.length := Nat.mod_lt _ hlen
  rw [List.getD_eq_getElem l d hlt]
  exact l.getElem_mem hlt

theorem refillIfEmpty_ne_nil (l : List HatColor) : refillIfEmpty l ≠ [] := by
  cases l with
  | nil => simp [refillIfEmpty, MEMBER_HATS]
  | cons a t => simp [refillIfEmpty]

theorem assignCandidates_ne_nil (m : HatManager) (f : Bool) :
    (assignCandidates m f).2 ≠ [] := by
  cases f with
  | false => exact refillIfEmpty_ne_nil m.available_hats
  | true =>
    unfold assignCandidates
    rw [if_pos rfl]
    by_cases hc : ((refillIfEmpty m.available_hats).filter
        (fun h => FIRST_SPEAKER_HATS.contains h)).isEmpty
    · rw [if_pos hc]
      decide
    · rw [if_neg hc]
      show (refillIfEmpty m.available_hats).filter (fun h => FIRST_SPEAKER_HATS.contains h) ≠ []
      intro hnil
      exact hc (by rw [hnil]; rfl)

theorem assign_hat_mem_candidates (m : HatManager) (f : Bool) (i : Nat) :
    (m.assign_hat f i).1 ∈ (assignCandidates m f).2 :=
  getD_mod_mem _ i HatColor.white (assignCandidates_ne_nil m f)

theorem assignCandidates_true_subset (m : HatManager) :
    ∀ h ∈ (assignCandidates m true).2, h ∈ FIRST_SPEAKER_HATS := by
  intro h hmem
  unfold assignCandidates at hmem
  rw [if_pos rfl] at hmem
  by_cases hc : ((refillIfEmpty m.available_hats).filter
      (fun x => FIRST_SPEAKER_HATS.contains x)).isEmpty
  · rw [if_pos hc] at hmem
    have hp := List.of_mem_filter hmem
    simpa using hp
  · rw [if_neg hc] at hmem
    have hp := List.of_mem_filter hmem
    simpa using hp

theorem assign_hat_first_restricted (m : HatManager) (i : Nat) :
    (m.assign_hat true i).1 ∈ FIRST_SPEAKER_HATS :=
  assignCandidates_true_subset m _ (assign_hat_mem_candidates m true i)

theorem assignRun_perm_of_flags_false (cs : List (Bool × Nat)) :
    ∀ m : HatManager, (∀ p ∈ cs, p.1 = false) →
      cs.length = m.available_hats.length →
      (assignRun m cs).1.Perm m.available_hats := by
  induction cs with
  | nil =>
    intro m _ hlen
    have hnil : m.available_hats = [] := by
      cases h : m.available_hats with
      | nil => rfl
      | cons a t => rw [h] at hlen; simp at hlen
    rw [hnil]
    exact List.Perm.refl _
  | cons c rest ih =>
    intro m hflags hlen
    have hc : c.1 = false := hflags c (List.mem_cons_self _ _)
    have hrest : ∀ p ∈ rest, p.1 = false := fun p hp => hflags p (List.mem_cons_of_mem _ hp)
    have hne : m.available_hats ≠ [] := by
      intro h
      rw [h] at hlen
      simp at hlen
    have hemp : m.available_hats.isEmpty = false := by
      cases h : m.available_hats with
      | nil => exact absurd h hne
      | cons a t => simp
    have hrefill : refillIfEmpty m.available_hats = m.available_hats := by
      unfold refillIfEmpty
      rw [hemp]
      rfl
    have hcand : assignCandidates m c.1 = (m.available_hats, m.available_hats) := by
      rw [hc]
      unfold assignCandidates
      rw [if_neg (by simp)]
      rw [hrefill]
    have hsel : (m.assign_hat c.1 c.2).1 ∈ m.available_hats := by
      have hm := assign_hat_mem_candidates m c.1 c.2
      rw [hcand] at hm
      exact hm
    have havail2 : (m.assign_hat c.1 c.2).2.available_hats
        = m.available_hats.erase (m.assign_hat c.1 c.2).1 := by
      show (assignCandidates m c.1).1.erase
            ((assignCandidates m c.1).2.getD
              (c.2 % (assignCandidates m c.1).2.length) HatColor.white)
          = m.available_hats.erase
            ((assignCandidates m c.1).2.getD
              (c.2 % (assignCandidates m c.1).2.length) HatColor.white)
      rw [hcand]
    have hlen2 : rest.length = (m.assign_hat c.1 c.2).2.available_hats.length := by
      rw [havail2, List.length_erase_of_mem hsel]
      simp only [List.length_cons] at hlen
      omega
    have hperm := ih (m.assign_hat c.1 c.2).2 hrest hlen2
    rw [havail2] at hperm
    have hcons : (assignRun m (c :: rest)).1
        = (m.assign_hat c.1 c.2).1 :: (assignRun (m.assign_hat c.1 c.2).2 rest).1 := rfl
    rw [hcons]
    exact (List.Perm.cons _ hperm).trans (List.perm_cons_erase hsel).symm

/-- Shape of one `assign_hat` step from the just-reset state, for either
first-speaker flag. -/
theorem assign_hat_reset_step (f : Bool) (i : Nat) :
    (HatManager.init.reset.assign_hat f i).1 ∈ MEMBER_HATS ∧
      (HatManager.init.reset.assign_hat f i).2.available_hats
        = MEMBER_HATS.erase (HatManager.init.reset.assign_hat f i).1 := by
  cases f with
  | false =>
    have hcand : assignCandidates HatManager.init.reset false = (MEMBER_HATS, MEMBER_HATS) := rfl
    constructor
    · have hm := assign_hat_mem_candidates HatManager.init.reset false i
      rw [hcand] at hm
      exact hm
    · rfl
  | true =>
    have hcand : assignCandidates HatManager.init.reset true
        = (MEMBER_HATS, [HatColor.white, HatColor.green]) := rfl
    constructor
    · have hm := assign_hat_mem_candidates HatManager.init.reset true i
      rw [hcand] at hm
      have hsub : ∀ x ∈ [HatColor.white, HatColor.green], x ∈ MEMBER_HATS := by decide
      exact hsub _ hm
    · rfl

/-- C3 (amended, proved part): if only the first of five consecutive calls
may carry `is_first_speaker = true`, the five assignments from a fresh
(reset) pool return each of the five hats exactly once. -/
theorem C3_five_calls_perm (cs : List (Bool × Nat)) (hlen : cs.length = 5)
    (hflags : ∀ p ∈ cs.tail, p.1 = false) :
    (assignRun HatManager.init.reset cs).1.Perm MEMBER_HATS := by
  cases cs with
  | nil => simp at hlen
  | cons c rest =>
    simp only [List.tail_cons] at hflags
    have hstep := assign_hat_reset_step c.1 c.2
    have hlenrest : rest.length
        = (HatManager.init.reset.assign_hat c.1 c.2).2.available_hats.length := by
      rw [hstep.2, List.length_erase_of_mem hstep.1]
      simp only [List.length_cons] at hlen
      simp only [MEMBER_HATS, List.length_cons, List.length_nil]
      omega
    have hperm := assignRun_perm_of_flags_false rest
      (HatManager.init.reset.assign_hat c.1 c.2).2 hflags hlenrest
    rw [hstep.2] at hperm
    have hcons : (assignRun HatManager.init.reset (c :: rest)).1
        = (HatManager.init.reset.assign_hat c.1 c.2).1
            :: (assignRun (HatManager.init.reset.assign_hat c.1 c.2).2 rest).1 := rfl
    rw [hcons]
    exact (List.Perm.cons _ hperm).trans (List.perm_cons_erase hstep.1).symm

/-- Witness for `C3_five_calls_perm` at a concrete input. -/
theorem C3_five_calls_perm_witness :
    (assignRun HatManager.init.reset
      [(true, 0), (false, 0), (false, 0), (false, 0), (false, 0)]).1.Perm MEMBER_HATS :=
  C3_five_calls_perm [(true, 0), (false, 0), (false, 0), (false, 0), (false, 0)]
    (by decide) (by decide)

/-- C3 counterexample: with `is_first_speaker = true` allowed on a later
call, a forced mid-cycle refill lets WHITE repeat within five consecutive
calls from a fresh pool, so the five results are not one-each of the five
roles (WHITE is returned twice). -/
theorem C3_counterexample :
    (assignRun HatManager.init.reset
        [(false, 0), (false, 3), (true, 0), (false, 0), (false, 0)]).1
      = [HatColor.white, HatColor.green, HatColor.white, HatColor.red, HatColor.black] ∧
    (assignRun HatManager.init.reset
        [(false, 0), (false, 3), (true, 0), (false, 0), (false, 0)]).1.count HatColor.white = 2 ∧
    ¬ (assignRun HatManager.init.reset
        [(false, 0), (false, 3), (true, 0), (false, 0), (false, 0)]).1.Perm MEMBER_HATS := by
  refine ⟨by decide, by decide, ?_⟩
  intro h
  have hcount := h.count_eq HatColor.white
  revert hcount
  decide

/-- C9: `reset()` is observationally identical to a freshly constructed
`HatManager` — every sequence of `assign_hat` / `get_unused_hats` /
`get_distribution_summary` calls (with the same random draws) produces the
same observations. -/
theorem C9_reset_indistinguishable_from_fresh (m : HatManager) (ops : List HatOp) :
    runHatOps (m.reset) ops = runHatOps HatManager.init ops := by
  have key : ∀ (f : Bool) (i : Nat),
      (HatManager.reset m).assign_hat f i = HatManager.init.assign_hat f i := by
    intro f i
    cases f <;> rfl
  induction ops with
  | nil => rfl
  | cons op rest ih =>
    cases op with
    | assign f i =>
      show HatObs.hat ((HatManager.reset m).assign_hat f i).1
            :: runHatOps ((HatManager.reset m).assign_hat f i).2 rest
          = HatObs.hat (HatManager.init.assign_hat f i).1
            :: runHatOps (HatManager.init.assign_hat f i).2 rest
      rw [key f i]
    | unused =>
      show HatObs.hats (HatManager.reset m).get_unused_hats :: runHatOps (HatManager.reset m) rest
          = HatObs.hats HatManager.init.get_unused_hats :: runHatOps HatManager.init rest
      rw [ih]
      rfl
    | distribution =>
      show HatObs.text (HatManager.reset m).get_distribution_summary
            :: runHatOps (HatManager.reset m) rest
          = HatObs.text HatManager.init.get_distribution_summary :: runHatOps HatManager.init rest
      rw [ih]
      rfl

/-- Witness for `C9_reset_indistinguishable_from_fresh` at a concrete
operation sequence. -/
theorem C9_reset_witness :
    runHatOps (HatManager.init.reset)
        [HatOp.assign true 1, HatOp.unused, HatOp.distribution, HatOp.assign false 2]
      = runHatOps HatManager.init
        [HatOp.assign true 1, HatOp.unused, HatOp.distribution, HatOp.assign false 2] :=
  C9_reset_indistinguishable_from_fresh HatManager.init
    [HatOp.assign true 1, HatOp.unused, HatOp.distribution, HatOp.assign false 2]

/- ================= services/openrouter.py ================= -/

/-- `BASE_RETRY_DELAY`: base of the exponential backoff, in seconds. -/
def BASE_RETRY_DELAY : Nat := 2

/-- `DEFAULT_MAX_RETRIES`. -/
def DEFAULT_MAX_RETRIES : Nat := 2

/-- A sleep performed by the client: `cooldown` is the fixed post-success
`asyncio.sleep(REQUEST_DELAY)` (1.5 s), `backoff d` an
`asyncio.sleep(BASE_RETRY_DELAY * 2 ** attempt)` of `d` seconds before a
retry. -/
inductive Delay
  | cooldown
  | backoff : Nat → Delay
deriving DecidableEq, Repr

/-- Outcome of one provider call inside `_chat_with_retry`: a parsed
response, a retryable error (`RateLimitError` / `APIStatusError`) with its
message, or any other exception. -/
inductive CallOutcome (α : Type)
  | success : α → CallOutcome α
  | retryable : String → CallOutcome α
  | fatal : String → CallOutcome α

/-- Result of one logical client call: the returned value, or the raised
exception's message. -/
inductive CallResult (α : Type)
  | ok : α → CallResult α
  | err : String → CallResult α
deriving DecidableEq

/-- `OpenRouterClient._chat_with_retry`, from loop attempt `attempt` on:
`oracle k` is what the provider call raises or returns on attempt `k`.
Returns the result, the sleeps performed and the number of provider calls
made.  A retryable error retries after an exponential backoff while
`attempt < maxRetries`; any other exception propagates immediately; a
success sleeps the fixed cooldown once and returns. -/
def chatWithRetryFrom {α : Type} (oracle : Nat → CallOutcome α) (maxRetries attempt : Nat) :
    CallResult α × List Delay × Nat :=
  match oracle attempt with
  | CallOutcome.success v => (CallResult.ok v, [Delay.cooldown], 1)
  | CallOutcome.fatal e => (CallResult.err e, [], 1)
  | CallOutcome.retryable e =>
    if attempt < maxRetries then
      let r := chatWithRetryFrom oracle maxRetries (attempt + 1)
      (r.1, Delay.backoff (BASE_RETRY_DELAY * 2 ^ attempt) :: r.2.1, r.2.2 + 1)
    else
      (CallResult.err e, [], 1)
termination_by maxRetries - attempt
decreasing_by omega

/-- `OpenRouterClient._chat_with_retry` (the loop starts at attempt 0). -/
def chat_with_retry {α : Type} (oracle : Nat → CallOutcome α) (maxRetries : Nat) :
    CallResult α × List Delay × Nat :=
  chatWithRetryFrom oracle maxRetries 0

/-- How one streaming attempt ends in `_stream_chat`: clean completion,
a retryable error, or any other exception. -/
inductive StreamEnd
  | done
  | retryable : String → StreamEnd
  | fatal : String → StreamEnd

/-- One streaming attempt: the content fragments yielded before the
attempt ends, and how it ends. -/
structure StreamAttempt where
  fragments : List String
  outcome : StreamEnd

/-- Everything observable about one logical `_stream_chat` call: its
result, all fragments yielded to the consumer (over all attempts), the
sleeps performed, and the number of provider calls. -/
structure StreamRun where
  result : CallResult Unit
  yielded : List String
  sleeps : List Delay
  calls : Nat
deriving DecidableEq

/-- `OpenRouterClient._stream_chat` from attempt `attempt` on.  Fragments
of an attempt are yielded as they arrive; an attempt that fails retryably
after yielding some fragments is reissued from the beginning (while
`attempt < maxRetries`), so its fragments stay in the consumer-visible
`yielded` list and the next attempt yields again from the start. -/
def streamChatFrom (oracle : Nat → StreamAttempt) (maxRetries attempt : Nat) : StreamRun :=
  match (oracle attempt).outcome with
  | StreamEnd.done =>
    { result := CallResult.ok (), yielded := (oracle attempt).fragments,
      sleeps := [Delay.cooldown], calls := 1 }
  | StreamEnd.fatal e =>
    { result := CallResult.err e, yielded := (oracle attempt).fragments,
      sleeps := [], calls := 1 }
  | StreamEnd.retryable e =>
    if attempt < maxRetries then
      let r := streamChatFrom oracle maxRetries (attempt + 1)
      { result := r.result, yielded := (oracle attempt).fragments ++ r.yielded,
        sleeps := Delay.backoff (BASE_RETRY_DELAY * 2 ^ attempt) :: r.sleeps,
        calls := r.calls + 1 }
    else
      { result := CallResult.err e, yielded := (oracle attempt).fragments,
        sleeps := [], calls := 1 }
termination_by maxRetries - attempt
decreasing_by omega

/-- `OpenRouterClient._stream_chat` (the loop starts at attempt 0). -/
def stream_chat (oracle : Nat → StreamAttempt) (maxRetries : Nat) : StreamRun :=
  streamChatFrom oracle maxRetries 0

/- Helper lemmas: behaviour of the retry loops on a run of retryable
failures followed by a success / fatal error / nothing. -/

theorem chatWithRetryFrom_success {α : Type} (oracle : Nat → CallOutcome α) (mr a : Nat)
    (v : α) (h : oracle a = CallOutcome.success v) :
    chatWithRetryFrom oracle mr a = (CallResult.ok v, [Delay.cooldown], 1) := by
  rw [chatWithRetryFrom, h]

theorem chatWithRetryFrom_fatal {α : Type} (oracle : Nat → CallOutcome α) (mr a : Nat)
    (e : String) (h : oracle a = CallOutcome.fatal e) :
    chatWithRetryFrom oracle mr a = (CallResult.err e, [], 1) := by
  rw [chatWithRetryFrom, h]

theorem chatWithRetryFrom_retry_step {α : Type} (oracle : Nat → CallOutcome α) (mr a : Nat)
    (e : String) (h : oracle a = CallOutcome.retryable e) (hlt : a < mr) :
    chatWithRetryFrom oracle mr a
      = ((chatWithRetryFrom oracle mr (a + 1)).1,
         Delay.backoff (BASE_RETRY_DELAY * 2 ^ a) :: (chatWithRetryFrom oracle mr (a + 1)).2.1,
         (chatWithRetryFrom oracle mr (a + 1)).2.2 + 1) := by
  rw [chatWithRetryFrom, h]
  simp [hlt]

theorem chatWithRetryFrom_exhausted {α : Type} (oracle : Nat → CallOutcome α) (mr : Nat)
    (e : String) (h : oracle mr = CallOutcome.retryable e) :
    chatWithRetryFrom oracle mr mr = (CallResult.err e, [], 1) := by
  rw [chatWithRetryFrom, h]
  simp

theorem chatWithRetryFrom_run {α : Type} (oracle : Nat → CallOutcome α) (mr : Nat) :
    ∀ (k a : Nat), a + k ≤ mr →
      (∀ j, j < k → ∃ e, oracle (a + j) = CallOutcome.retryable e) →
      chatWithRetryFrom oracle mr a
        = ((chatWithRetryFrom oracle mr (a + k)).1,
           (List.range' a k).map (fun j => Delay.backoff (BASE_RETRY_DELAY * 2 ^ j))
             ++ (chatWithRetryFrom oracle mr (a + k)).2.1,
           k + (chatWithRetryFrom oracle mr (a + k)).2.2) := by
  intro k
  induction k with
  | zero =>
    intro a _ _
    simp
  | succ k ih =>
    intro a hle hretry
    obtain ⟨e, he⟩ := hretry 0 (Nat.succ_pos k)
    rw [Nat.add_zero] at he
    have hlt : a < mr := by omega
    have hrec := ih (a + 1) (by omega)
      (fun j hj => by
        have hr := hretry (j + 1) (by omega)
        rwa [show a + (j + 1) = a + 1 + j by omega] at hr)
    rw [chatWithRetryFrom_retry_step oracle mr a e he hlt, hrec,
      show a + 1 + k = a + (k + 1) by omega]
    simp only [Prod.mk.injEq, List.range', List.map_cons, List.cons_append]
    exact ⟨trivial, trivial, by omega⟩

theorem streamChatFrom_done (oracle : Nat → StreamAttempt) (mr a : Nat)
    (h : (oracle a).outcome = StreamEnd.done) :
    streamChatFrom oracle mr a
      = { result := CallResult.ok (), yielded := (oracle a).fragments,
          sleeps := [Delay.cooldown], calls := 1 } := by
  rw [streamChatFrom, h]

theorem streamChatFrom_fatal (oracle : Nat → StreamAttempt) (mr a : Nat) (e : String)
    (h : (oracle a).outcome = StreamEnd.fatal e) :
    streamChatFrom oracle mr a
      = { result := CallResult.err e, yielded := (oracle a).fragments,
          sleeps := [], calls := 1 } := by
  rw [streamChatFrom, h]

theorem streamChatFrom_retry_step (oracle : Nat → StreamAttempt) (mr a : Nat) (e : String)
    (h : (oracle a).outcome = StreamEnd.retryable e) (hlt : a < mr) :
    streamChatFrom oracle mr a
      = { result := (streamChatFrom oracle mr (a + 1)).result,
          yielded := (oracle a).fragments ++ (streamChatFrom oracle mr (a + 1)).yielded,
          sleeps := Delay.backoff (BASE_RETRY_DELAY * 2 ^ a)
            :: (streamChatFrom oracle mr (a + 1)).sleeps,
          calls := (streamChatFrom oracle mr (a + 1)).calls + 1 } := by
  rw [streamChatFrom, h]
  simp [hlt]

theorem streamChatFrom_exhausted (oracle : Nat → StreamAttempt) (mr : Nat) (e : String)
    (h : (oracle mr).outcome = StreamEnd.retryable e) :
    streamChatFrom oracle mr mr
      = { result := CallResult.err e, yielded := (oracle mr).fragments,
          sleeps := [], calls := 1 } := by
  rw [streamChatFrom, h]
  simp

theorem streamChatFrom_run (oracle : Nat → StreamAttempt) (mr : Nat) :
    ∀ (k a : Nat), a + k ≤ mr →
      (∀ j, j < k → ∃ e, (oracle (a + j)).outcome = StreamEnd.retryable e) →
      streamChatFrom oracle mr a
        = { result := (streamChatFrom oracle mr (a + k)).result,
            yielded := ((List.range' a k).map (fun j => (oracle j).fragments)).flatten
              ++ (streamChatFrom oracle mr (a + k)).yielded,
            sleeps := (List.range' a k).map (fun j => Delay.backoff (BASE_RETRY_DELAY * 2 ^ j))
              ++ (streamChatFrom oracle mr (a + k)).sleeps,
            calls := k + (streamChatFrom oracle mr (a + k)).calls } := by
  intro k
  induction k with
  | zero =>
    intro a _ _
    simp
  | succ k ih =>
    intro a hle hretry
    obtain ⟨e, he⟩ := hretry 0 (Nat.succ_pos k)
    rw [Nat.add_zero] at he
    have hlt : a < mr := by omega
    have hrec := ih (a + 1) (by omega) (fun j hj => by
      have hr := hretry (j + 1) (by omega)
      rwa [show a + (j + 1) = a + 1 + j by omega] at hr)
    rw [streamChatFrom_retry_step oracle mr a e he hlt, hrec,
      show a + 1 + k = a + (k + 1) by omega]
    simp only [StreamRun.mk.injEq, List.range', List.map_cons, List.cons_append,
      List.flatten_cons, List.append_assoc]
    exact ⟨trivial, trivial, trivial, by omega⟩

/-- C5: the retry policy of both client paths.  For the non-streaming
`_chat_with_retry` and the streaming `_stream_chat`: `k` retryable
failures followed by a success yield the value after backoffs
`BASE_RETRY_DELAY * 2 ^ attempt` for attempts `0 … k-1` and exactly one
final cooldown, in `k + 1` provider calls; a non-retryable error at
attempt `k` propagates at once (no further call, no backoff, no cooldown);
all `maxRetries + 1` attempts failing retryably raises the last observed
error after `maxRetries + 1` calls, with no cooldown. -/
theorem C5_retry_policy :
    (∀ (α : Type) (oracle : Nat → CallOutcome α) (mr k : Nat) (v : α),
      k ≤ mr →
      (∀ j, j < k → ∃ e, oracle j = CallOutcome.retryable e) →
      oracle k = CallOutcome.success v →
      chat_with_retry oracle mr
        = (CallResult.ok v,
           (List.range' 0 k).map (fun j => Delay.backoff (BASE_RETRY_DELAY * 2 ^ j))
             ++ [Delay.cooldown],
           k + 1)) ∧
    (∀ (α : Type) (oracle : Nat → CallOutcome α) (mr k : Nat) (e : String),
      k ≤ mr →
      (∀ j, j < k → ∃ e2, oracle j = CallOutcome.retryable e2) →
      oracle k = CallOutcome.fatal e →
      chat_with_retry oracle mr
        = (CallResult.err e,
           (List.range' 0 k).map (fun j => Delay.backoff (BASE_RETRY_DELAY * 2 ^ j)),
           k + 1)) ∧
    (∀ (α : Type) (oracle : Nat → CallOutcome α) (mr : Nat) (errs : Nat → String),
      (∀ j, j ≤ mr → oracle j = CallOutcome.retryable (errs j)) →
      chat_with_retry (α := α) oracle mr
        = (CallResult.err (errs mr),
           (List.range' 0 mr).map (fun j => Delay.backoff (BASE_RETRY_DELAY * 2 ^ j)),
           mr + 1)) ∧
    (∀ (oracle : Nat → StreamAttempt) (mr k : Nat),
      k ≤ mr →
      (∀ j, j < k → ∃ e, (oracle j).outcome = StreamEnd.retryable e) →
      (oracle k).outcome = StreamEnd.done →
      stream_chat oracle mr
        = { result := CallResult.ok (),
            yielded := ((List.range' 0 k).map (fun j => (oracle j).fragments)).flatten
              ++ (oracle k).fragments,
            sleeps := (List.range' 0 k).map (fun j => Delay.backoff (BASE_RETRY_DELAY * 2 ^ j))
              ++ [Delay.cooldown],
            calls := k + 1 }) ∧
    (∀ (oracle : Nat → StreamAttempt) (mr k : Nat) (e : String),
      k ≤ mr →
      (∀ j, j < k → ∃ e2, (oracle j).outcome = StreamEnd.retryable e2) →
      (oracle k).outcome = StreamEnd.fatal e →
      stream_chat oracle mr
        = { result := CallResult.err e,
            yielded := ((List.range' 0 k).map (fun j => (oracle j).fragments)).flatten
              ++ (oracle k).fragments,
            sleeps := (List.range' 0 k).map (fun j => Delay.backoff (BASE_RETRY_DELAY * 2 ^ j)),
            calls := k + 1 }) ∧
    (∀ (oracle : Nat → StreamAttempt) (mr : Nat) (errs : Nat → String),
      (∀ j, j ≤ mr → (oracle j).outcome = StreamEnd.retryable (errs j)) →
      stream_chat oracle mr
        = { result := CallResult.err (errs mr),
            yielded := ((List.range' 0 mr).map (fun j => (oracle j).fragments)).flatten
              ++ (oracle mr).fragments,
            sleeps := (List.range' 0 mr).map (fun j => Delay.backoff (BASE_RETRY_DELAY * 2 ^ j)),
            calls := mr + 1 }) := by
  refine ⟨?_, ?_, ?_, ?_, ?_, ?_⟩
  · intro α oracle mr k v hk hr hs
    have hrun := chatWithRetryFrom_run oracle mr k 0 (by omega)
      (fun j hj => by simpa using hr j hj)
    rw [Nat.zero_add] at hrun
    unfold chat_with_retry
    rw [hrun, chatWithRetryFrom_success oracle mr k v hs]
  · intro α oracle mr k e hk hr hf
    have hrun := chatWithRetryFrom_run oracle mr k 0 (by omega)
      (fun j hj => by simpa using hr j hj)
    rw [Nat.zero_add] at hrun
    unfold chat_with_retry
    rw [hrun, chatWithRetryFrom_fatal oracle mr k e hf]
    simp
  · intro α oracle mr errs hall
    have hrun := chatWithRetryFrom_run oracle mr mr 0 (by omega)
      (fun j hj => by exact ⟨errs j, by simpa using hall j (by omega)⟩)
    rw [Nat.zero_add] at hrun
    unfold chat_with_retry
    rw [hrun, chatWithRetryFrom_exhausted oracle mr (errs mr) (hall mr (by omega))]
    simp
  · intro oracle mr k hk hr hs
    have hrun := streamChatFrom_run oracle mr k 0 (by omega)
      (fun j hj => by simpa using hr j hj)
    rw [Nat.zero_add] at hrun
    unfold stream_chat
    rw [hrun, streamChatFrom_done oracle mr k hs]
  · intro oracle mr k e hk hr hf
    have hrun := streamChatFrom_run oracle mr k 0 (by omega)
      (fun j hj => by simpa using hr j hj)
    rw [Nat.zero_add] at hrun
    unfold stream_chat
    rw [hrun, streamChatFrom_fatal oracle mr k e hf]
    simp
  · intro oracle mr errs hall
    have hrun := streamChatFrom_run oracle mr mr 0 (by omega)
      (fun j hj => by exact ⟨errs j, by simpa using hall j (by omega)⟩)
    rw [Nat.zero_add] at hrun
    unfold stream_chat
    rw [hrun, streamChatFrom_exhausted oracle mr (errs mr) (hall mr (by omega))]
    simp

/-- Oracle for the C5 witness: attempt 0 fails retryably, attempt 1
succeeds. -/
def oracleC5w : Nat → CallOutcome Nat
  | 0 => CallOutcome.retryable "429"
  | _ + 1 => CallOutcome.success 7

/-- Witness for `C5_retry_policy` at a concrete oracle. -/
theorem C5_retry_policy_witness :
    chat_with_retry oracleC5w 2
      = (CallResult.ok 7,
         (List.range' 0 1).map (fun j => Delay.backoff (BASE_RETRY_DELAY * 2 ^ j))
           ++ [Delay.cooldown],
         1 + 1) :=
  C5_retry_policy.1 Nat oracleC5w 2 1 7 (by omega)
    (fun j hj => by
      have hj0 : j = 0 := by omega
      subst hj0
      exact ⟨"429", rfl⟩)
    rfl

/-- Streaming oracle where attempt 0 yields a fragment and then fails
retryably, and every later attempt yields the full content and completes. -/
def dupOracle : Nat → StreamAttempt
  | 0 => { fragments := ["Hello "], outcome := StreamEnd.retryable "429 rate limited" }
  | _ + 1 => { fragments := ["Hello ", "world"], outcome := StreamEnd.done }

/-- C10: a retryable failure mid-stream reissues the whole request and the
new attempt's fragments are yielded from the beginning, after the fragments
the failed attempt already delivered; concretely, the consumer of one
logical call can see the delivered prefix twice and the concatenated turn
text duplicates content. -/
theorem C10_stream_retry_duplicates :
    (∀ (oracle : Nat → StreamAttempt) (mr : Nat) (e : String),
      (oracle 0).outcome = StreamEnd.retryable e → 0 < mr →
      stream_chat oracle mr
        = { result := (streamChatFrom oracle mr 1).result,
            yielded := (oracle 0).fragments ++ (streamChatFrom oracle mr 1).yielded,
            sleeps := Delay.backoff (BASE_RETRY_DELAY * 2 ^ 0)
              :: (streamChatFrom oracle mr 1).sleeps,
            calls := (streamChatFrom oracle mr 1).calls + 1 }) ∧
    stream_chat dupOracle DEFAULT_MAX_RETRIES
      = { result := CallResult.ok (),
          yielded := ["Hello ", "Hello ", "world"],
          sleeps := [Delay.backoff 2, Delay.cooldown],
          calls := 2 } ∧
    String.join (stream_chat dupOracle DEFAULT_MAX_RETRIES).yielded = "Hello Hello world" := by
  have hconc : stream_chat dupOracle DEFAULT_MAX_RETRIES
      = { result := CallResult.ok (),
          yielded := ["Hello ", "Hello ", "world"],
          sleeps := [Delay.backoff 2, Delay.cooldown],
          calls := 2 } := by
    unfold stream_chat DEFAULT_MAX_RETRIES
    rw [streamChatFrom_retry_step dupOracle 2 0 "429 rate limited" rfl (by omega)]
    rw [streamChatFrom_done dupOracle 2 1 rfl]
    rfl
  refine ⟨?_, hconc, by rw [hconc]; rfl⟩
  intro oracle mr e h0 hmr
  unfold stream_chat
  rw [streamChatFrom_retry_step oracle mr 0 e h0 hmr]

/-- Witness for `C10_stream_retry_duplicates` at the concrete oracle. -/
theorem C10_stream_retry_duplicates_witness :
    stream_chat dupOracle 2
      = { result := (streamChatFrom dupOracle 2 1).result,
          yielded := (dupOracle 0).fragments ++ (streamChatFrom dupOracle 2 1).yielded,
          sleeps := Delay.backoff (BASE_RETRY_DELAY * 2 ^ 0)
            :: (streamChatFrom dupOracle 2 1).sleeps,
          calls := (streamChatFrom dupOracle 2 1).calls + 1 } :=
  C10_stream_retry_duplicates.1 dupOracle 2 "429 rate limited" rfl (by omega)

/- ================= models.py ================= -/

/-- `Role` enum. -/
inductive Role
  | system
  | user
  | assistant
  | moderator
  | member
deriving DecidableEq, Repr

/-- `MessageType` enum. -/
inductive MessageType
  | opening
  | speech
  | round_summary
  | final_summary
  | search_result
deriving DecidableEq, Repr

/-- `Message` model (one history entry). -/
structure Message where
  role : Role
  content : String
  speaker_name : String
  model_id : String
  message_type : MessageType
  sources : List String
  hat_color : String
  hat_name : String
deriving DecidableEq, Repr

/-- `SessionState` enum. -/
inductive SessionState
  | idle
  | running
  | summarizing
  | finished
deriving DecidableEq, Repr

/-- `SessionEvent` dataclass from `council/session.py`. -/
structure SessionEvent where
  event_type : String
  speaker_name : String
  content : String
  is_streaming : Bool
  is_final : Bool
  speech_index : Nat
  search_query : String
  search_sources : List String
  hat_emoji : String
  hat_name : String
deriving DecidableEq, Repr

/-- A `SessionEvent` with every field at its dataclass default. -/
def emptyEvent : SessionEvent :=
  { event_type := "", speaker_name := "", content := "", is_streaming := false,
    is_final := false, speech_index := 0, search_query := "", search_sources := [],
    hat_emoji := "", hat_name := "" }

/- ================= council/moderator.py ================= -/

/-- Does `needle` match at the head of `haystack`? -/
def leadMatch : List Char → List Char → Bool
  | _, [] => true
  | [], _ :: _ => false
  | a :: as, b :: bs => (a == b) && leadMatch as bs

/-- Does `needle` occur contiguously anywhere in `haystack`? -/
def occursIn : List Char → List Char → Bool
  | [], needle => needle.isEmpty
  | a :: t, needle => leadMatch (a :: t) needle || occursIn t needle

/-- Python's `needle in haystack` on strings. -/
def pyContains (haystack needle : String) : Bool :=
  occursIn haystack.data needle.data

/-- The per-candidate validation test of `select_next_speaker` (line 117 of
`council/moderator.py`): `member.lower() in selected.lower() or
selected.lower() in member.lower()`. -/
def speakerMatches (selected member : String) : Bool :=
  pyContains selected.toLower member.toLower || pyContains member.toLower selected.toLower

/-- `Moderator.select_next_speaker`, given the stripped-to-be model reply
`content` (the provider call is an oracle): return the first remaining
member matching the case-insensitive bidirectional substring test, else
fall back to the first remaining member (empty string when none remain). -/
def select_next_speaker (content : String) (remaining_members : List String) : String :=
  match remaining_members.find? (speakerMatches content.trim) with
  | some member => member
  | none => remaining_members.headD ""

/-- C7: `select_next_speaker` always returns an element of a non-empty
`remaining_members`, and when no candidate passes the case-insensitive
substring validation it falls back to the first remaining candidate. -/
theorem C7_select_returns_member :
    (∀ (content : String) (remaining_members : List String),
      remaining_members ≠ [] →
      select_next_speaker content remaining_members ∈ remaining_members) ∧
    (∀ (content : String) (remaining_members : List String),
      (∀ m ∈ remaining_members, speakerMatches content.trim m = false) →
      select_next_speaker content remaining_members = remaining_members.headD "") := by
  constructor
  · intro content remaining hne
    unfold select_next_speaker
    cases hfind : remaining.find? (speakerMatches content.trim) with
    | some m => exact List.mem_of_find?_eq_some hfind
    | none =>
      cases remaining with
      | nil => exact absurd rfl hne
      | cons a t => exact List.mem_cons_self a t
  · intro content remaining hnone
    unfold select_next_speaker
    rw [List.find?_eq_none.mpr (fun m hm => by rw [hnone m hm]; intro hcon; cases hcon)]

/-- Witness for `C7_select_returns_member` at a concrete reply and list. -/
theorem C7_select_returns_member_witness :
    select_next_speaker "  I pick gpt-4O!  " ["Claude", "GPT-4o"] ∈ ["Claude", "GPT-4o"] :=
  C7_select_returns_member.1 "  I pick gpt-4O!  " ["Claude", "GPT-4o"] (by decide)

/-- A tool-call request as parsed by `_parse_response`. -/
structure ToolCall where
  id : String
  name : String
  arguments : String
deriving DecidableEq, Repr

/-- A parsed non-streaming reply (`content`, `tool_calls`, `finish_reason`);
Python's `tool_calls = None` is modelled as the empty list. -/
structure ChatResponse where
  content : String
  tool_calls : List ToolCall
  finish_reason : String
deriving DecidableEq, Repr

/-- One message of the transient call context built inside
`_chat_with_optional_search`. -/
inductive CtxMsg
  | plain (role : String) (content : String)
  | assistantToolCalls (content : String) (tool_calls : List ToolCall)
  | toolResult (tool_call_id : String) (content : String)
deriving DecidableEq, Repr

/-- Everything observable about one `_chat_with_optional_search` call. -/
structure SearchChatResult where
  messages : List CtxMsg
  queries : List String
  followUpCalls : Nat
  output : List String
  history : List Message
deriving Repr

/-- `Moderator._chat_with_optional_search`.  Oracles: `response` is the
reply of the tool-enabled non-streaming `chat_with_tools` call; `queryOf`
stands for `json.loads(tc["arguments"]).get("query", "")`; `searchFn` for
`self.search.format_results_for_ai(self.search.search(query))`; `followUp`
for the follow-up streaming chat on the extended transient context.
`messages` is the transient call context and `history` the permanent
session history, which the function never touches. -/
def chat_with_optional_search (response : ChatResponse) (queryOf : String → String)
    (searchFn : String → String) (followUp : List CtxMsg → List String)
    (messages : List CtxMsg) (history : List Message) : SearchChatResult :=
  if response.tool_calls.isEmpty then
    { messages := messages, queries := [], followUpCalls := 0,
      output := if response.content.isEmpty then [] else [response.content],
      history := history }
  else
    let web_calls := response.tool_calls.filter (fun tc => tc.name == "web_search")
    let search_results := web_calls.map (fun tc => (tc, searchFn (queryOf tc.arguments)))
    let messages2 := (messages ++ [CtxMsg.assistantToolCalls response.content response.tool_calls])
      ++ search_results.map (fun pr => CtxMsg.toolResult pr.1.id pr.2)
    { messages := messages2,
      queries := web_calls.map (fun tc => queryOf tc.arguments),
      followUpCalls := 1,
      output := followUp messages2,
      history := history }

/-- C6 (amended, proved part): the final-summary tool protocol never
touches the permanent history; it performs exactly one follow-up streaming
call when the first reply carries tool calls and none otherwise (hence at
most one tool round-trip); every tool call named `web_search` is
dispatched to the search service, in order; the search results land only
in the transient context, appended after the assistant tool-call turn; and
with no tool call the plain content is used directly. -/
theorem C6_final_summary_tool_roundtrip :
    (∀ response queryOf searchFn followUp messages history,
      (chat_with_optional_search response queryOf searchFn followUp messages history).history
        = history) ∧
    (∀ response queryOf searchFn followUp messages history,
      (chat_with_optional_search response queryOf searchFn followUp messages history).followUpCalls
        = if response.tool_calls.isEmpty then 0 else 1) ∧
    (∀ response queryOf searchFn followUp messages history,
      (chat_with_optional_search response queryOf searchFn followUp messages history).queries
        = if response.tool_calls.isEmpty then []
          else (response.tool_calls.filter (fun tc => tc.name == "web_search")).map
            (fun tc => queryOf tc.arguments)) ∧
    (∀ response queryOf searchFn followUp messages history,
      ¬ response.tool_calls.isEmpty →
      (chat_with_optional_search response queryOf searchFn followUp messages history).messages
        = (messages ++ [CtxMsg.assistantToolCalls response.content response.tool_calls])
          ++ ((response.tool_calls.filter (fun tc => tc.name == "web_search")).map
            (fun tc => CtxMsg.toolResult tc.id (searchFn (queryOf tc.arguments)))) ∧
      (chat_with_optional_search response queryOf searchFn followUp messages history).output
        = followUp (chat_with_optional_search response queryOf searchFn followUp
            messages history).messages) ∧
    (∀ response queryOf searchFn followUp messages history,
      response.tool_calls.isEmpty →
      (chat_with_optional_search response queryOf searchFn followUp messages history).messages
        = messages ∧
      (chat_with_optional_search response queryOf searchFn followUp messages history).output
        = if response.content.isEmpty then [] else [response.content]) := by
  refine ⟨?_, ?_, ?_, ?_, ?_⟩
  · intro response queryOf searchFn followUp messages history
    unfold chat_with_optional_search
    by_cases h : response.tool_calls.isEmpty <;> simp [h]
  · intro response queryOf searchFn followUp messages history
    unfold chat_with_optional_search
    by_cases h : response.tool_calls.isEmpty <;> simp [h]
  · intro response queryOf searchFn followUp messages history
    unfold chat_with_optional_search
    by_cases h : response.tool_calls.isEmpty <;> simp [h]
  · intro response queryOf searchFn followUp messages history h
    unfold chat_with_optional_search
    rw [if_neg h]
    refine ⟨?_, rfl⟩
    simp only [List.map_map]
    rfl
  · intro response queryOf searchFn followUp messages history h
    unfold chat_with_optional_search
    rw [if_pos h]
    exact ⟨rfl, rfl⟩

/-- Concrete `web_search` tool call for the C6 witness. -/
def searchCall : ToolCall :=
  { id := "c1", name := "web_search", arguments := "\x7b\"query\": \"AI news\"\x7d" }

/-- Concrete tool-enabled reply carrying one `web_search` call. -/
def respC6w : ChatResponse :=
  { content := "", tool_calls := [searchCall], finish_reason := "tool_calls" }

/-- Concrete reply whose only tool call is not named `web_search`. -/
def respC6cex : ChatResponse :=
  { content := "", tool_calls := [{ id := "c9", name := "other_tool", arguments := "\x7b\x7d" }],
    finish_reason := "tool_calls" }

/-- Witness for `C6_final_summary_tool_roundtrip` at a concrete response
carrying one `web_search` tool call. -/
theorem C6_final_summary_tool_roundtrip_witness :
    (chat_with_optional_search respC6w (fun _ => "AI news") (fun q => "### 搜尋結果 " ++ q)
        (fun _ => ["narrative"]) [CtxMsg.plain "user" "prompt"] []).messages
      = ([CtxMsg.plain "user" "prompt", CtxMsg.assistantToolCalls "" [searchCall]]
          ++ [CtxMsg.toolResult "c1" "### 搜尋結果 AI news"]) ∧
    (chat_with_optional_search respC6w (fun _ => "AI news") (fun q => "### 搜尋結果 " ++ q)
        (fun _ => ["narrative"]) [CtxMsg.plain "user" "prompt"] []).output
      = (fun _ => ["narrative"] : List CtxMsg → List String)
          (chat_with_optional_search respC6w (fun _ => "AI news") (fun q => "### 搜尋結果 " ++ q)
            (fun _ => ["narrative"]) [CtxMsg.plain "user" "prompt"] []).messages := by
  have happ := (C6_final_summary_tool_roundtrip.2.2.2.1) respC6w
    (fun _ => "AI news") (fun q => "### 搜尋結果 " ++ q) (fun _ => ["narrative"])
    [CtxMsg.plain "user" "prompt"] [] (by decide)
  exact ⟨by rw [happ.1]; rfl, happ.2⟩

/-- C6 counterexample to the claim as stated: a reply whose only tool-call
request is named something other than `web_search` is a tool-call request
that is never dispatched to the search service (zero queries dispatched),
even though the follow-up streaming call still occurs. -/
theorem C6_counterexample :
    respC6cex.tool_calls ≠ [] ∧
    (chat_with_optional_search respC6cex (fun _ => "q") (fun q => q)
      (fun _ => ["n"]) [] []).queries = [] ∧
    (chat_with_optional_search respC6cex (fun _ => "q") (fun q => q)
      (fun _ => ["n"]) [] []).followUpCalls = 1 :=
  ⟨by decide, by decide, by decide⟩

/- ================= council/session.py ================= -/

/-- A bare system event (`SessionEvent(event_type="system", content=...)`). -/
def sysEvent (c : String) : SessionEvent :=
  { emptyEvent with event_type := "system", content := c }

/-- A streaming moderator event (one per yielded chunk; `""` for the
initial one). -/
def modStreamEvent (speaker c : String) : SessionEvent :=
  { emptyEvent with
    event_type := "moderator", speaker_name := speaker, content := c,
    is_streaming := true }

/-- The final (non-streaming) moderator event carrying the full text. -/
def modFinalEvent (speaker full : String) : SessionEvent :=
  { emptyEvent with
    event_type := "moderator", speaker_name := speaker, content := full,
    is_streaming := false, is_final := true }

/-- Oracle inputs of one `Session.run`: the session configuration plus all
nondeterministic inputs — provider streams, `random.shuffle` results,
`random.choice` indices for hat draws, and the externally written
stop/summarize flags as observed at each checkpoint.  Loop checkpoints are
numbered `2*i` (top of iteration `i`) and `2*i + 1` (after turn `i`);
`stopDuringOpening` is the stop flag as observed at the check that follows
the opening's final yielded event. -/
structure RunEnv where
  memberNames : List String
  totalRounds : Nat
  moderatorName : String
  modelIds : String → String
  openingChunks : List String
  stopDuringOpening : Bool
  shuffles : Nat → List String
  turnChunks : Nat → List String
  turnError : Nat → Option String
  summaryChunks : Nat → List String
  finalChunks : List String
  hatIdx : Nat → Nat
  stopFlag : Nat → Bool
  summaryFlag : Nat → Bool

/-- Mutable state of a `Session` during `run`. -/
structure SessionSt where
  state : SessionState
  history : List Message
  speech_count : Nat
  latest_summary : String
  hatMgr : HatManager
  current_round : Nat
  current_hat_info : Option HatInfo

/-- `Session._add_message`. -/
def addMessage (st : SessionSt) (role : Role) (content : String) (speaker_name : String)
    (message_type : MessageType) (model_id : String) (sources : List String)
    (hat_color : String) (hat_name : String) : SessionSt :=
  { st with history := st.history
      ++ [{ role := role, content := content, speaker_name := speaker_name,
            model_id := model_id, message_type := message_type, sources := sources,
            hat_color := hat_color, hat_name := hat_name }] }

/-- `Session._moderator_opening`: start event, one event per chunk, an
Opening history entry, final event. -/
def moderatorOpening (env : RunEnv) (st : SessionSt) : List SessionEvent × SessionSt :=
  let mod_name := env.moderatorName
  let full := String.join env.openingChunks
  ((modStreamEvent mod_name "" :: env.openingChunks.map (modStreamEvent mod_name))
    ++ [modFinalEvent mod_name full],
   addMessage st Role.moderator full mod_name MessageType.opening "" [] "" "")

/-- The announcement system event at the top of `_member_speak`. -/
def speakStartEvent (member_name : String) (info : HatInfo) (s : Nat) : SessionEvent :=
  { emptyEvent with
    event_type := "system",
    content := member_name ++ " " ++ info.emoji ++ " 開始發言（第 " ++ toString s
      ++ " 次發言，" ++ info.name ++ "）",
    speech_index := s, hat_emoji := info.emoji, hat_name := info.name }

/-- The streaming member events of `_member_speak` (`content` is `""` for
the initial one and one chunk for each later one). -/
def memberStreamEvent (member_name : String) (info : HatInfo) (s : Nat) (c : String) :
    SessionEvent :=
  { emptyEvent with
    event_type := "member", speaker_name := member_name, content := c,
    is_streaming := true, speech_index := s, hat_emoji := info.emoji, hat_name := info.name }

/-- The warning system event yielded when a member's provider call fails
terminally. -/
def failEvent (member_name err : String) (s : Nat) : SessionEvent :=
  { emptyEvent with
    event_type := "system",
    content := "⚠️ " ++ member_name ++ " 發言失敗，已跳過：" ++ err,
    speech_index := s }

/-- The final member event of a successful `_member_speak`. -/
def memberFinalEvent (member_name : String) (info : HatInfo) (s : Nat) (full : String) :
    SessionEvent :=
  { emptyEvent with
    event_type := "member", speaker_name := member_name, content := full,
    is_streaming := false, is_final := true, speech_index := s, hat_emoji := info.emoji,
    hat_name := info.name }

/-- `Session._member_speak` for the turn with 0-based schedule index `i`
(the caller has already incremented `speech_count`): assign a hat
(restricted draw exactly when the speech counter is 1), announce, stream
the member's fragments; a terminal provider error yields one warning event
and appends nothing; a success appends one Speech entry tagged with the
assigned hat. -/
def memberSpeak (env : RunEnv) (member_name : String) (i : Nat) (st : SessionSt) :
    List SessionEvent × SessionSt :=
  let is_first := st.speech_count == 1
  let r := st.hatMgr.assign_hat is_first (env.hatIdx i)
  let info := r.2.get_hat_info r.1
  let st1 := { st with hatMgr := r.2, current_hat_info := some info }
  let startEvs := [speakStartEvent member_name info st.speech_count,
    memberStreamEvent member_name info st.speech_count ""]
  let chunkEvs := (env.turnChunks i).map (memberStreamEvent member_name info st.speech_count)
  match env.turnError i with
  | some err =>
    (startEvs ++ chunkEvs ++ [failEvent member_name err st.speech_count],
     { st1 with current_hat_info := none })
  | none =>
    let full := String.join (env.turnChunks i)
    (startEvs ++ chunkEvs ++ [memberFinalEvent member_name info st.speech_count full],
     addMessage st1 Role.member full member_name MessageType.speech
       (env.modelIds member_name) [] info.color info.name)

/-- `Session._after_speech_summary` for the turn with index `i`: no-op when
no Speech entry exists yet; otherwise stream the moderator's summary,
store it as the running summary and append a RoundSummary entry. -/
def afterSpeechSummary (env : RunEnv) (i : Nat) (st : SessionSt) :
    List SessionEvent × SessionSt :=
  match st.history.reverse.find? (fun m => m.message_type == MessageType.speech) with
  | none => ([], st)
  | some _ =>
    let mod_name := env.moderatorName
    let chunks := env.summaryChunks i
    let full := String.join chunks
    ((modStreamEvent mod_name "" :: chunks.map (modStreamEvent mod_name))
      ++ [modFinalEvent mod_name full],
     addMessage { st with latest_summary := full } Role.moderator full mod_name
       MessageType.round_summary "" [] "" "")

/-- `Session._final_summary`: set state to Summarizing, stream the summary
(under the "（總結）" display name), append a FinalSummary entry under the
moderator's own name. -/
def finalSummary (env : RunEnv) (st : SessionSt) : List SessionEvent × SessionSt :=
  let mod_name := env.moderatorName
  let summary_name := mod_name ++ "（總結）"
  let chunks := env.finalChunks
  let full := String.join chunks
  (([sysEvent "進行最終總結", modStreamEvent summary_name ""]
      ++ chunks.map (modStreamEvent summary_name))
    ++ [modFinalEvent summary_name full],
   addMessage { st with state := SessionState.summarizing } Role.moderator full mod_name
     MessageType.final_summary "" [] "" "")

/-- The speaking loop of `Session.run` (step 3): before each turn check the
stop/summarize flags and break; recompute the current round; increment the
speech counter; run the turn; check the flags again; after a succeeded,
non-final turn produce the after-speech summary. -/
def runLoop (env : RunEnv) : List String → Nat → Nat → Nat → SessionSt →
    List SessionEvent × SessionSt
  | [], _, _, _, st => ([], st)
  | member_name :: rest, i, total, per_round, st =>
    if env.stopFlag (2 * i) || env.summaryFlag (2 * i) then ([], st)
    else
      let st0 := { st with
        current_round := i / per_round + 1,
        speech_count := st.speech_count + 1 }
      let r := memberSpeak env member_name i st0
      let speech_succeeded := r.1.any (fun e => e.is_final && e.event_type == "member")
      if env.stopFlag (2 * i + 1) || env.summaryFlag (2 * i + 1) then (r.1, r.2)
      else
        let s := if speech_succeeded && decide (i < total - 1) then afterSpeechSummary env i r.2
          else ([], r.2)
        let rr := runLoop env rest (i + 1) total per_round s.2
        (r.1 ++ s.1 ++ rr.1, rr.2)

/-- The eagerly built speaking order (step 2 of `Session.run`): one
`random.shuffle` of the member names per round, concatenated. -/
def speakingOrder (env : RunEnv) : List String :=
  ((List.range env.totalRounds).map env.shuffles).flatten

/-- Session state at the top of `run` (fresh session, counters reset, hat
pool reset). -/
def initialSt : SessionSt :=
  { state := SessionState.running, history := [], speech_count := 0, latest_summary := "",
    hatMgr := HatManager.init.reset, current_round := 1, current_hat_info := none }

/-- `Session.run` for a fresh session: the "討論開始" event and the
moderator opening; an early return if the stop flag was observed during
the opening; otherwise the speaking loop over the eagerly built order
followed unconditionally by the final summary and the Finished state. -/
def runSession (env : RunEnv) : List SessionEvent × SessionSt :=
  let o := moderatorOpening env initialSt
  if env.stopDuringOpening then
    (sysEvent "討論開始" :: o.1, o.2)
  else
    let l := runLoop env (speakingOrder env) 0
      (env.memberNames.length * env.totalRounds) env.memberNames.length o.2
    let f := finalSummary env l.2
    ((sysEvent "討論開始" :: o.1) ++ l.1 ++ f.1,
     { f.2 with state := SessionState.finished })

/-- Number of history entries of a given type. -/
def countType (t : MessageType) (h : List Message) : Nat :=
  (h.filter (fun m => m.message_type == t)).length

/-- The first Speech-type entry of a history. -/
def firstSpeech (h : List Message) : Option Message :=
  h.find? (fun m => m.message_type == MessageType.speech)

/-- A system event whose content opens with the warning sign (the
`⚠️ … 發言失敗，已跳過` events). -/
def isWarnEvent (e : SessionEvent) : Bool :=
  (e.event_type == "system") && (decide (e.content.data.head? = some '⚠'))

/- Helper lemmas about the orchestrator. -/

theorem find?_append_none {α : Type} {p : α → Bool} {l₁ : List α} (l₂ : List α)
    (h : l₁.find? p = none) : (l₁ ++ l₂).find? p = l₂.find? p := by
  induction l₁ with
  | nil => rfl
  | cons a t ih =>
    rw [List.find?_cons] at h
    cases hp : p a with
    | true => rw [hp] at h; cases h
    | false =>
      rw [hp] at h
      rw [List.cons_append, List.find?_cons, hp]
      exact ih h

theorem memberSpeak_history (env : RunEnv) (member_name : String) (i : Nat) (st : SessionSt) :
    ∃ t, (memberSpeak env member_name i st).2.history = st.history ++ t ∧
      ∀ m ∈ t, m.message_type = MessageType.speech := by
  unfold memberSpeak
  cases he : env.turnError i with
  | some err =>
    refine ⟨[], by simp, by simp⟩
  | none =>
    refine ⟨_, rfl, ?_⟩
    intro m hm
    rw [List.mem_singleton] at hm
    rw [hm]

theorem afterSpeech_history (env : RunEnv) (i : Nat) (st : SessionSt) :
    ∃ t, (afterSpeechSummary env i st).2.history = st.history ++ t ∧
      ∀ m ∈ t, m.message_type = MessageType.round_summary := by
  unfold afterSpeechSummary
  cases hf : st.history.reverse.find? (fun m => m.message_type == MessageType.speech) with
  | none => exact ⟨[], by simp, by simp⟩
  | some ls =>
    refine ⟨_, rfl, ?_⟩
    intro m hm
    rw [List.mem_singleton] at hm
    rw [hm]

theorem runLoop_history (env : RunEnv) :
    ∀ (order : List String) (i total per : Nat) (st : SessionSt),
      ∃ t, (runLoop env order i total per st).2.history = st.history ++ t ∧
        ∀ m ∈ t, m.message_type = MessageType.speech ∨
          m.message_type = MessageType.round_summary := by
  intro order
  induction order with
  | nil => intro i total per st; exact ⟨[], by simp [runLoop], by simp⟩
  | cons nm rest ih =>
    intro i total per st
    unfold runLoop
    by_cases hflag : (env.stopFlag (2 * i) || env.summaryFlag (2 * i)) = true
    · rw [if_pos hflag]
      exact ⟨[], by simp, by simp⟩
    · rw [if_neg hflag]
      set st0 : SessionSt := { st with
        current_round := i / per + 1, speech_count := st.speech_count + 1 } with hst0
      obtain ⟨t1, ht1, ht1ty⟩ := memberSpeak_history env nm i st0
      by_cases hflag2 : (env.stopFlag (2 * i + 1) || env.summaryFlag (2 * i + 1)) = true
      · rw [if_pos hflag2]
        exact ⟨t1, ht1, fun m hm => Or.inl (ht1ty m hm)⟩
      · rw [if_neg hflag2]
        by_cases hsucc : ((memberSpeak env nm i st0).1.any
            (fun e => e.is_final && e.event_type == "member") && decide (i < total - 1)) = true
        · rw [if_pos hsucc]
          obtain ⟨t2, ht2, ht2ty⟩ := afterSpeech_history env i (memberSpeak env nm i st0).2
          obtain ⟨t3, ht3, ht3ty⟩ := ih (i + 1) total per (afterSpeechSummary env i
            (memberSpeak env nm i st0).2).2
          refine ⟨t1 ++ t2 ++ t3, ?_, ?_⟩
          · show (runLoop env rest (i + 1) total per _).2.history = _
            rw [ht3, ht2, ht1]
            simp [List.append_assoc]
          · intro m hm
            rcases List.mem_append.mp hm with hm' | hm'
            · rcases List.mem_append.mp hm' with hm'' | hm''
              · exact Or.inl (ht1ty m hm'')
              · exact Or.inr (ht2ty m hm'')
            · exact ht3ty m hm'
        · rw [if_neg hsucc]
          obtain ⟨t3, ht3, ht3ty⟩ := ih (i + 1) total per (memberSpeak env nm i st0).2
          refine ⟨t1 ++ t3, ?_, ?_⟩
          · show (runLoop env rest (i + 1) total per _).2.history = _
            rw [ht3, ht1]
            simp [List.append_assoc]
          · intro m hm
            rcases List.mem_append.mp hm with hm' | hm'
            · exact Or.inl (ht1ty m hm')
            · exact ht3ty m hm'

theorem countType_append (t : MessageType) (a b : List Message) :
    countType t (a ++ b) = countType t a + countType t b := by
  unfold countType
  rw [List.filter_append, List.length_append]

theorem finalSummary_countFS (env : RunEnv) (st : SessionSt) :
    countType MessageType.final_summary (finalSummary env st).2.history
      = countType MessageType.final_summary st.history + 1 := by
  unfold finalSummary addMessage
  rw [show ({ st with state := SessionState.summarizing } : SessionSt).history
    = st.history from rfl]
  rw [countType_append]
  rfl

theorem opening_countFS (env : RunEnv) (st : SessionSt) :
    countType MessageType.final_summary (moderatorOpening env st).2.history
      = countType MessageType.final_summary st.history := by
  unfold moderatorOpening addMessage
  rw [countType_append]
  rfl

theorem runLoop_countFS (env : RunEnv) (order : List String) (i total per : Nat)
    (st : SessionSt) :
    countType MessageType.final_summary (runLoop env order i total per st).2.history
      = countType MessageType.final_summary st.history := by
  obtain ⟨t, ht, hty⟩ := runLoop_history env order i total per st
  rw [ht, countType_append]
  have hzero : countType MessageType.final_summary t = 0 := by
    unfold countType
    rw [List.filter_eq_nil_iff.mpr]
    · rfl
    · intro m hm
      rcases hty m hm with h | h <;> simp [h]
  omega

theorem runSession_eq (env : RunEnv) (h : env.stopDuringOpening = false) :
    runSession env
      = ((sysEvent "討論開始" :: (moderatorOpening env initialSt).1)
          ++ (runLoop env (speakingOrder env) 0 (env.memberNames.length * env.totalRounds)
            env.memberNames.length (moderatorOpening env initialSt).2).1
          ++ (finalSummary env (runLoop env (speakingOrder env) 0
            (env.memberNames.length * env.totalRounds) env.memberNames.length
            (moderatorOpening env initialSt).2).2).1,
         { (finalSummary env (runLoop env (speakingOrder env) 0
             (env.memberNames.length * env.totalRounds) env.memberNames.length
             (moderatorOpening env initialSt).2).2).2 with
           state := SessionState.finished }) := by
  unfold runSession
  rw [if_neg (by simp [h])]

/-- C1 (amended, proved part): whenever the stop flag is not observed
during the moderator opening, the run always reaches the final summary —
whether the schedule completes or a stop / summarize-now flag breaks the
speaking loop at any checkpoint — appending exactly one FinalSummary entry
and finishing in the Finished state. -/
theorem C1_final_summary_always (env : RunEnv) (h : env.stopDuringOpening = false) :
    countType MessageType.final_summary (runSession env).2.history = 1 ∧
    (runSession env).2.state = SessionState.finished := by
  rw [runSession_eq env h]
  constructor
  · show countType MessageType.final_summary (finalSummary env _).2.history = 1
    rw [finalSummary_countFS, runLoop_countFS, opening_countFS]
    rfl
  · rfl

/-- A small concrete session: two members, two rounds, every provider call
succeeding, no flags raised. -/
def baseEnv : RunEnv :=
  { memberNames := ["Alice", "Bob"], totalRounds := 2, moderatorName := "Max",
    modelIds := fun _ => "openai/gpt", openingChunks := ["歡迎"], stopDuringOpening := false,
    shuffles := fun r => if r == 0 then ["Bob", "Alice"] else ["Alice", "Bob"],
    turnChunks := fun _ => ["內容"], turnError := fun _ => none,
    summaryChunks := fun _ => ["小結"], finalChunks := ["總結"],
    hatIdx := fun _ => 0, stopFlag := fun _ => false, summaryFlag := fun _ => false }

/-- `baseEnv` with a summarize-now flag raised before the second turn. -/
def envSummarizeMidRun : RunEnv :=
  { baseEnv with summaryFlag := fun k => decide (2 ≤ k) }

/-- `baseEnv` with the stop flag raised while the opening streams. -/
def envStopOpening : RunEnv :=
  { baseEnv with stopDuringOpening := true, stopFlag := fun _ => true }

/-- `baseEnv` with one member, two rounds, and the first turn's provider
call failing terminally. -/
def envFirstTurnFails : RunEnv :=
  { baseEnv with
    memberNames := ["Alice"], shuffles := fun _ => ["Alice"],
    turnError := fun i => if i == 0 then some "APIStatusError" else none }

/-- Witness for `C1_final_summary_always`: a summarize-now flag raised
mid-run still ends in exactly one FinalSummary entry and Finished. -/
theorem C1_final_summary_always_witness :
    countType MessageType.final_summary (runSession envSummarizeMidRun).2.history = 1 ∧
    (runSession envSummarizeMidRun).2.state = SessionState.finished :=
  C1_final_summary_always envSummarizeMidRun rfl

/-- C1 counterexample to the claim as stated: when the stop flag is raised
during the moderator opening, `Session.run` returns at once — no
FinalSummary entry is ever appended and the state stays Running, never
reaching Summarizing→Finished. -/
theorem C1_counterexample :
    envStopOpening.stopDuringOpening = true ∧
    countType MessageType.final_summary (runSession envStopOpening).2.history = 0 ∧
    (runSession envStopOpening).2.state = SessionState.running := by
  refine ⟨rfl, by decide, by decide⟩

theorem find?_append_some {α : Type} {p : α → Bool} {l₁ : List α} {x : α} (l₂ : List α)
    (h : l₁.find? p = some x) : (l₁ ++ l₂).find? p = some x := by
  induction l₁ with
  | nil => cases h
  | cons a t ih =>
    rw [List.find?_cons] at h
    cases hp : p a with
    | true =>
      rw [hp] at h
      rw [List.cons_append, List.find?_cons, hp]
      exact h
    | false =>
      rw [hp] at h
      rw [List.cons_append, List.find?_cons, hp]
      exact ih h

theorem color_of_first_hat (h : HatColor) (hm : h ∈ FIRST_SPEAKER_HATS) :
    (HAT_DEFINITIONS h).color = "white" ∨ (HAT_DEFINITIONS h).color = "green" := by
  rw [show FIRST_SPEAKER_HATS = [HatColor.white, HatColor.green] from rfl] at hm
  rcases List.mem_cons.mp hm with h1 | h1
  · left
    rw [h1]
    rfl
  · rw [List.mem_singleton] at h1
    right
    rw [h1]
    rfl

theorem memberSpeak_first_ok (env : RunEnv) (name : String) (i : Nat) (st : SessionSt)
    (hok : env.turnError i = none) (hc : st.speech_count = 1) :
    ∃ msg, (memberSpeak env name i st).2.history = st.history ++ [msg] ∧
      msg.message_type = MessageType.speech ∧
      (msg.hat_color = "white" ∨ msg.hat_color = "green") := by
  unfold memberSpeak
  rw [hok, hc]
  refine ⟨_, rfl, rfl, ?_⟩
  exact color_of_first_hat _ (assign_hat_first_restricted st.hatMgr (env.hatIdx i))

theorem firstSpeech_push (h1 : List Message) (msg : Message) (t : List Message)
    (hnos : firstSpeech h1 = none) (hty : msg.message_type = MessageType.speech) :
    firstSpeech (h1 ++ (msg :: t)) = some msg := by
  unfold firstSpeech at hnos ⊢
  rw [find?_append_none _ hnos, List.find?_cons, show (msg.message_type
    == MessageType.speech) = true from by rw [hty]; rfl]

theorem runLoop_firstSpeech (env : RunEnv) (order : List String) (total per : Nat)
    (st : SessionSt) (hcount : st.speech_count = 0)
    (hnos : firstSpeech st.history = none) (hok : env.turnError 0 = none) :
    ∀ m, firstSpeech (runLoop env order 0 total per st).2.history = some m →
      (m.hat_color = "white" ∨ m.hat_color = "green") := by
  intro m hm
  cases order with
  | nil =>
    rw [show (runLoop env [] 0 total per st).2 = st from rfl, hnos] at hm
    cases hm
  | cons nm rest =>
    unfold runLoop at hm
    by_cases hflag : (env.stopFlag (2 * 0) || env.summaryFlag (2 * 0)) = true
    · rw [if_pos hflag] at hm
      rw [show ((([], st) : List SessionEvent × SessionSt)).2 = st from rfl, hnos] at hm
      cases hm
    · rw [if_neg hflag] at hm
      simp only [] at hm
      have hc1 : ({ st with
          current_round := 0 / per + 1,
          speech_count := st.speech_count + 1 } : SessionSt).speech_count = 1 := by
        show st.speech_count + 1 = 1
        omega
      obtain ⟨msg, hmsg, hmty, hmcolor⟩ := memberSpeak_first_ok env nm 0 _ hok hc1
      have hsthist : ({ st with
          current_round := 0 / per + 1,
          speech_count := st.speech_count + 1 } : SessionSt).history = st.history := rfl
      by_cases hflag2 : (env.stopFlag (2 * 0 + 1) || env.summaryFlag (2 * 0 + 1)) = true
      · rw [if_pos hflag2] at hm
        rw [hmsg, hsthist] at hm
        rw [firstSpeech_push st.history msg [] hnos hmty] at hm
        obtain rfl : msg = m := Option.some.inj hm
        exact hmcolor
      · rw [if_neg hflag2] at hm
        set ms := memberSpeak env nm 0 { st with
          current_round := 0 / per + 1, speech_count := st.speech_count + 1 } with hms
        have hs : ∃ t2, (if ms.1.any (fun e => e.is_final && e.event_type == "member")
              && decide (0 < total - 1) then afterSpeechSummary env 0 ms.2
            else (([], ms.2) : List SessionEvent × SessionSt)).2.history
            = ms.2.history ++ t2 := by
          by_cases hsucc : (ms.1.any (fun e => e.is_final && e.event_type == "member")
              && decide (0 < total - 1)) = true
          · rw [if_pos hsucc]
            obtain ⟨t2, ht2, _⟩ := afterSpeech_history env 0 ms.2
            exact ⟨t2, ht2⟩
          · rw [if_neg hsucc]
            exact ⟨[], by simp⟩
        obtain ⟨t2, ht2⟩ := hs
        obtain ⟨t3, ht3, _⟩ := runLoop_history env rest 1 total per
          (if ms.1.any (fun e => e.is_final && e.event_type == "member")
              && decide (0 < total - 1) then afterSpeechSummary env 0 ms.2
            else (([], ms.2) : List SessionEvent × SessionSt)).2
        rw [ht3, ht2, hmsg, hsthist] at hm
        rw [List.append_assoc, List.append_assoc, List.singleton_append] at hm
        rw [firstSpeech_push st.history msg (t2 ++ t3) hnos hmty] at hm
        obtain rfl : msg = m := Option.some.inj hm
        exact hmcolor

/-- The Opening entry appended by `_moderator_opening`. -/
def openingMessage (env : RunEnv) : Message :=
  { role := Role.moderator, content := String.join env.openingChunks,
    speaker_name := env.moderatorName, model_id := "",
    message_type := MessageType.opening, sources := [], hat_color := "", hat_name := "" }

/-- The FinalSummary entry appended by `_final_summary`. -/
def finalSummaryMessage (env : RunEnv) : Message :=
  { role := Role.moderator, content := String.join env.finalChunks,
    speaker_name := env.moderatorName, model_id := "",
    message_type := MessageType.final_summary, sources := [], hat_color := "", hat_name := "" }

theorem runSession_history (env : RunEnv) (h : env.stopDuringOpening = false) :
    (runSession env).2.history
      = (runLoop env (speakingOrder env) 0 (env.memberNames.length * env.totalRounds)
          env.memberNames.length (moderatorOpening env initialSt).2).2.history
        ++ [finalSummaryMessage env] := by
  unfold runSession
  rw [if_neg (by simp [h])]
  rfl

/-- C4 (amended, proved part): the restricted first-speaker draw never has
an empty candidate list; a restricted draw always returns WHITE or GREEN;
and in every run whose first scheduled turn does not fail, the first
recorded Speech entry carries a WHITE or GREEN role tag. -/
theorem C4_first_role_restricted :
    (∀ (m : HatManager) (f : Bool), (assignCandidates m f).2 ≠ []) ∧
    (∀ (m : HatManager) (i : Nat), (m.assign_hat true i).1 ∈ FIRST_SPEAKER_HATS) ∧
    (∀ (env : RunEnv) (msg : Message), env.turnError 0 = none →
      firstSpeech (runSession env).2.history = some msg →
      (msg.hat_color = "white" ∨ msg.hat_color = "green")) := by
  refine ⟨assignCandidates_ne_nil, assign_hat_first_restricted, ?_⟩
  intro env msg hok hm
  by_cases hop : env.stopDuringOpening = true
  · unfold runSession at hm
    rw [if_pos hop] at hm
    rw [show (moderatorOpening env initialSt).2.history
      = initialSt.history ++ [openingMessage env] from rfl] at hm
    unfold firstSpeech initialSt openingMessage at hm
    simp at hm
  · have hfalse : env.stopDuringOpening = false := by simpa using hop
    rw [runSession_history env hfalse] at hm
    cases hL : firstSpeech (runLoop env (speakingOrder env) 0
        (env.memberNames.length * env.totalRounds) env.memberNames.length
        (moderatorOpening env initialSt).2).2.history with
    | none =>
      unfold firstSpeech at hL hm
      rw [find?_append_none _ hL] at hm
      simp [finalSummaryMessage] at hm
    | some m0 =>
      have hnos : firstSpeech (moderatorOpening env initialSt).2.history = none := by
        rw [show (moderatorOpening env initialSt).2.history
          = initialSt.history ++ [openingMessage env] from rfl]
        unfold firstSpeech initialSt openingMessage
        simp
      have hres := runLoop_firstSpeech env (speakingOrder env)
        (env.memberNames.length * env.totalRounds) env.memberNames.length
        (moderatorOpening env initialSt).2 rfl hnos hok m0 hL
      unfold firstSpeech at hL hm
      rw [find?_append_some _ hL] at hm
      obtain rfl : m0 = msg := Option.some.inj hm
      exact hres

/-- The first Speech entry of the `baseEnv` run. -/
def msgC4w : Message :=
  { role := Role.member, content := "內容", speaker_name := "Bob", model_id := "openai/gpt",
    message_type := MessageType.speech, sources := [], hat_color := "white", hat_name := "白帽" }

/-- Witness for `C4_first_role_restricted` at the concrete `baseEnv` run. -/
theorem C4_first_role_restricted_witness :
    baseEnv.turnError 0 = none ∧
    firstSpeech (runSession baseEnv).2.history = some msgC4w ∧
    (msgC4w.hat_color = "white" ∨ msgC4w.hat_color = "green") :=
  ⟨rfl, by decide, C4_first_role_restricted.2.2 baseEnv msgC4w rfl (by decide)⟩

/-- C4 counterexample to the claim as stated: when the first scheduled turn
fails terminally (its restricted WHITE draw is consumed but no Speech entry
is appended), the second turn draws from the depleted full pool and the
first recorded Speech entry's role is RED — outside the restricted
first-speaker subset. -/
theorem C4_counterexample :
    (firstSpeech (runSession envFirstTurnFails).2.history).map (fun m => m.hat_color)
      = some "red" ∧
    ¬ ("red" = "white" ∨ "red" = "green") :=
  ⟨by decide, by decide⟩

/- C8: the eagerly built speaking order. -/

theorem flatten_length_const {α : Type} : ∀ (L : List (List α)) (k : Nat),
    (∀ l ∈ L, l.length = k) → L.flatten.length = k * L.length := by
  intro L k
  induction L with
  | nil => intro _; simp
  | cons a t ih =>
    intro h
    rw [List.flatten_cons, List.length_append,
      ih (fun l hl => h l (List.mem_cons_of_mem _ hl)), h a (List.mem_cons_self _ _),
      List.length_cons, Nat.mul_succ]
    omega

/-- C8: the speaking order is the eager concatenation of one shuffle per
round; under the (actual) invariant that each shuffle permutes the member
list, its length is participants × rounds and every round block is a
permutation of the member list; and adjacent repeats across a round
boundary are kept, as the concrete `baseEnv` run shows. -/
theorem C8_order_eager_permutations :
    (∀ env : RunEnv,
      speakingOrder env = ((List.range env.totalRounds).map env.shuffles).flatten) ∧
    (∀ env : RunEnv,
      (∀ r, r < env.totalRounds → (env.shuffles r).Perm env.memberNames) →
      (speakingOrder env).length = env.memberNames.length * env.totalRounds ∧
      ∀ l ∈ (List.range env.totalRounds).map env.shuffles, l.Perm env.memberNames) ∧
    ((∀ r, r < baseEnv.totalRounds → (baseEnv.shuffles r).Perm baseEnv.memberNames) ∧
      speakingOrder baseEnv = ["Bob", "Alice", "Alice", "Bob"] ∧
      (speakingOrder baseEnv)[1]? = (speakingOrder baseEnv)[2]?) := by
  refine ⟨fun env => rfl, ?_, ?_, by decide, by decide⟩
  · intro env h
    constructor
    · unfold speakingOrder
      rw [flatten_length_const _ env.memberNames.length ?_, List.length_map,
        List.length_range]
      intro l hl
      obtain ⟨r, hr, rfl⟩ := List.mem_map.mp hl
      exact (h r (List.mem_range.mp hr)).length_eq
    · intro l hl
      obtain ⟨r, hr, rfl⟩ := List.mem_map.mp hl
      exact h r (List.mem_range.mp hr)
  · intro r hr
    have h2 : r = 0 ∨ r = 1 := by
      have : r < 2 := hr
      omega
    rcases h2 with h2 | h2 <;> rw [h2] <;> decide

/-- Witness for `C8_order_eager_permutations` at the concrete `baseEnv`. -/
theorem C8_order_eager_permutations_witness :
    (speakingOrder baseEnv).length = baseEnv.memberNames.length * baseEnv.totalRounds :=
  (C8_order_eager_permutations.2.1 baseEnv (fun r hr => by
    have h2 : r = 0 ∨ r = 1 := by
      have : r < 2 := hr
      omega
    rcases h2 with h2 | h2 <;> rw [h2] <;> decide)).1

/- C2: containment of a terminally failed turn. -/

theorem memberSpeak_err_history (env : RunEnv) (nm : String) (i : Nat) (st : SessionSt)
    (err : String) (he : env.turnError i = some err) :
    (memberSpeak env nm i st).2.history = st.history := by
  unfold memberSpeak
  rw [he]

theorem memberSpeak_count (env : RunEnv) (nm : String) (i : Nat) (st : SessionSt) :
    (memberSpeak env nm i st).2.speech_count = st.speech_count := by
  unfold memberSpeak
  cases he : env.turnError i <;> rfl

theorem head_ne_warn_append (a b : String) (h1 : a.data.head? ≠ some '⚠')
    (h2 : a.data ≠ []) :
    ((a ++ b).data.head? ≠ some '⚠') ∧ (a ++ b).data ≠ [] := by
  rw [String.data_append]
  cases hk : a.data with
  | nil => exact absurd hk h2
  | cons c cs =>
    constructor
    · intro hcon
      apply h1
      rw [hk]
      exact hcon
    · exact List.cons_ne_nil _ _

theorem head_ne_warn_base (nm : String) (hn : nm.data.head? ≠ some '⚠') :
    ((nm ++ " ").data.head? ≠ some '⚠') ∧ (nm ++ " ").data ≠ [] := by
  rw [String.data_append]
  cases hk : nm.data with
  | nil => exact ⟨by decide, by decide⟩
  | cons c cs =>
    constructor
    · intro hcon
      apply hn
      rw [hk]
      exact hcon
    · exact List.cons_ne_nil _ _

theorem speakStart_not_warn (nm : String) (info : HatInfo) (s : Nat)
    (hn : nm.data.head? ≠ some '⚠') :
    isWarnEvent (speakStartEvent nm info s) = false := by
  have b0 := head_ne_warn_base nm hn
  have b1 := head_ne_warn_append (nm ++ " ") info.emoji b0.1 b0.2
  have b2 := head_ne_warn_append _ " 開始發言（第 " b1.1 b1.2
  have b3 := head_ne_warn_append _ (toString s) b2.1 b2.2
  have b4 := head_ne_warn_append _ " 次發言，" b3.1 b3.2
  have b5 := head_ne_warn_append _ info.name b4.1 b4.2
  have b6 := head_ne_warn_append _ "）" b5.1 b5.2
  have hd : (speakStartEvent nm info s).content.data.head? ≠ some '⚠' := b6.1
  unfold isWarnEvent
  rw [decide_eq_false hd, Bool.and_false]

theorem memberStream_not_warn (nm : String) (info : HatInfo) (s : Nat) (c : String) :
    isWarnEvent (memberStreamEvent nm info s c) = false := rfl

theorem failEvent_warn (nm err : String) (s : Nat) :
    isWarnEvent (failEvent nm err s) = true := by
  have hd : (failEvent nm err s).content.data.head? = some '⚠' := by
    show ("⚠️ " ++ nm ++ " 發言失敗，已跳過：" ++ err).data.head? = some '⚠'
    rw [String.data_append, String.data_append, String.data_append]
    rfl
  unfold isWarnEvent
  rw [hd]
  rfl

theorem memberSpeak_err_warnings (env : RunEnv) (nm : String) (i : Nat) (st : SessionSt)
    (err : String) (he : env.turnError i = some err) (hn : nm.data.head? ≠ some '⚠') :
    ((memberSpeak env nm i st).1.filter isWarnEvent).length = 1 := by
  unfold memberSpeak
  rw [he]
  rw [List.filter_append, List.filter_append]
  rw [List.filter_eq_nil_iff.mpr ?_, List.filter_eq_nil_iff.mpr ?_]
  · rw [show List.filter isWarnEvent [failEvent nm err st.speech_count]
      = [failEvent nm err st.speech_count] from by
        rw [List.filter_cons, failEvent_warn]
        rfl]
    rfl
  · intro e hee
    obtain ⟨c, _, rfl⟩ := List.mem_map.mp hee
    rw [memberStream_not_warn]
    exact fun hcon => Bool.noConfusion hcon
  · intro e hee
    rcases List.mem_cons.mp hee with rfl | h5
    · rw [speakStart_not_warn _ _ _ hn]
      exact fun hcon => Bool.noConfusion hcon
    · rcases List.mem_cons.mp h5 with rfl | h6
      · rw [memberStream_not_warn]
        exact fun hcon => Bool.noConfusion hcon
      · cases h6

theorem memberSpeak_err_no_final (env : RunEnv) (nm : String) (i : Nat) (st : SessionSt)
    (err : String) (he : env.turnError i = some err) :
    (memberSpeak env nm i st).1.any (fun e => e.is_final && e.event_type == "member")
      = false := by
  unfold memberSpeak
  rw [he]
  rw [List.any_eq_false]
  intro e hee
  rcases List.mem_append.mp hee with h1 | h2
  · rcases List.mem_append.mp h1 with h3 | h4
    · rcases List.mem_cons.mp h3 with rfl | h5
      · exact fun hcon => Bool.noConfusion hcon
      · rcases List.mem_cons.mp h5 with rfl | h6
        · exact fun hcon => Bool.noConfusion hcon
        · cases h6
    · obtain ⟨c, _, rfl⟩ := List.mem_map.mp h4
      exact fun hcon => Bool.noConfusion hcon
  · rcases List.mem_cons.mp h2 with rfl | h7
    · exact fun hcon => Bool.noConfusion hcon
    · cases h7

theorem runLoop_failed_turn (env : RunEnv) (nm : String) (rest : List String)
    (i total per : Nat) (st : SessionSt) (err : String)
    (he : env.turnError i = some err)
    (h0 : env.stopFlag (2 * i) = false) (h0' : env.summaryFlag (2 * i) = false)
    (h1 : env.stopFlag (2 * i + 1) = false) (h1' : env.summaryFlag (2 * i + 1) = false) :
    runLoop env (nm :: rest) i total per st
      = ((memberSpeak env nm i { st with
            current_round := i / per + 1, speech_count := st.speech_count + 1 }).1
          ++ (runLoop env rest (i + 1) total per (memberSpeak env nm i { st with
            current_round := i / per + 1, speech_count := st.speech_count + 1 }).2).1,
         (runLoop env rest (i + 1) total per (memberSpeak env nm i { st with
            current_round := i / per + 1, speech_count := st.speech_count + 1 }).2).2) := by
  conv_lhs => unfold runLoop
  rw [if_neg (by simp [h0, h0']), if_neg (by simp [h1, h1'])]
  rw [memberSpeak_err_no_final env nm i _ err he]
  rw [show (false && decide (i < total - 1)) = false from rfl]
  rw [if_neg (by exact fun hcon => Bool.noConfusion hcon)]
  simp only [List.append_nil]

theorem memberSpeak_start_mem (env : RunEnv) (nm : String) (i : Nat) (st : SessionSt) :
    ∃ e ∈ (memberSpeak env nm i st).1, e.event_type = "member" ∧ e.speaker_name = nm
      ∧ e.speech_index = st.speech_count ∧ e.is_streaming = true := by
  unfold memberSpeak
  cases he : env.turnError i with
  | some err =>
    refine ⟨memberStreamEvent nm ((st.hatMgr.assign_hat (st.speech_count == 1)
      (env.hatIdx i)).2.get_hat_info (st.hatMgr.assign_hat (st.speech_count == 1)
      (env.hatIdx i)).1) st.speech_count "", ?_, rfl, rfl, rfl, rfl⟩
    exact List.mem_append_left _ (List.mem_append_left _
      (List.mem_cons_of_mem _ (List.mem_cons_self _ _)))
  | none =>
    refine ⟨memberStreamEvent nm ((st.hatMgr.assign_hat (st.speech_count == 1)
      (env.hatIdx i)).2.get_hat_info (st.hatMgr.assign_hat (st.speech_count == 1)
      (env.hatIdx i)).1) st.speech_count "", ?_, rfl, rfl, rfl, rfl⟩
    exact List.mem_append_left _ (List.mem_append_left _
      (List.mem_cons_of_mem _ (List.mem_cons_self _ _)))

theorem runLoop_cons_mem (env : RunEnv) (nm : String) (rest : List String)
    (i total per : Nat) (st : SessionSt) (e : SessionEvent)
    (h0 : env.stopFlag (2 * i) = false) (h0' : env.summaryFlag (2 * i) = false)
    (he : e ∈ (memberSpeak env nm i { st with
      current_round := i / per + 1, speech_count := st.speech_count + 1 }).1) :
    e ∈ (runLoop env (nm :: rest) i total per st).1 := by
  unfold runLoop
  rw [if_neg (by simp [h0, h0'])]
  by_cases hflag2 : (env.stopFlag (2 * i + 1) || env.summaryFlag (2 * i + 1)) = true
  · rw [if_pos hflag2]
    exact he
  · rw [if_neg hflag2]
    exact List.mem_append_left _ (List.mem_append_left _ he)

/-- C2: a terminally failed member turn is contained.  The failed turn
appends nothing to the history; it emits exactly one warning event; the
loop's history only ever grows by appending; and after a failed turn with
no flag raised the next scheduled speaker's streaming turn still starts
(an event of its name and speech index is emitted). -/
theorem C2_failed_turn_contained :
    (∀ (env : RunEnv) (nm : String) (i : Nat) (st : SessionSt) (err : String),
      env.turnError i = some err →
      (memberSpeak env nm i st).2.history = st.history) ∧
    (∀ (env : RunEnv) (nm : String) (i : Nat) (st : SessionSt) (err : String),
      env.turnError i = some err → nm.data.head? ≠ some '⚠' →
      ((memberSpeak env nm i st).1.filter isWarnEvent).length = 1) ∧
    (∀ (env : RunEnv) (order : List String) (i total per : Nat) (st : SessionSt),
      ∃ t, (runLoop env order i total per st).2.history = st.history ++ t) ∧
    (∀ (env : RunEnv) (nm1 nm2 : String) (rest : List String)
      (i total per : Nat) (st : SessionSt) (err : String),
      env.turnError i = some err →
      env.stopFlag (2 * i) = false → env.summaryFlag (2 * i) = false →
      env.stopFlag (2 * i + 1) = false → env.summaryFlag (2 * i + 1) = false →
      env.stopFlag (2 * (i + 1)) = false → env.summaryFlag (2 * (i + 1)) = false →
      ∃ e ∈ (runLoop env (nm1 :: nm2 :: rest) i total per st).1,
        e.event_type = "member" ∧ e.speaker_name = nm2 ∧
        e.speech_index = st.speech_count + 2 ∧ e.is_streaming = true) := by
  refine ⟨memberSpeak_err_history, memberSpeak_err_warnings, ?_, ?_⟩
  · intro env order i total per st
    obtain ⟨t, ht, _⟩ := runLoop_history env order i total per st
    exact ⟨t, ht⟩
  · intro env nm1 nm2 rest i total per st err he h0 h0' h1 h1' h2 h2'
    rw [runLoop_failed_turn env nm1 (nm2 :: rest) i total per st err he h0 h0' h1 h1']
    set ms := memberSpeak env nm1 i { st with
      current_round := i / per + 1, speech_count := st.speech_count + 1 } with hms
    obtain ⟨e, hemem, hety, henm, heidx, hestr⟩ := memberSpeak_start_mem env nm2 (i + 1)
      { ms.2 with
        current_round := (i + 1) / per + 1, speech_count := ms.2.speech_count + 1 }
    have hin : e ∈ (runLoop env (nm2 :: rest) (i + 1) total per ms.2).1 :=
      runLoop_cons_mem env nm2 rest (i + 1) total per ms.2 e h2 h2' hemem
    refine ⟨e, List.mem_append_right _ hin, hety, henm, ?_, hestr⟩
    rw [heidx]
    show ms.2.speech_count + 1 = st.speech_count + 2
    rw [hms, memberSpeak_count]

/-- `baseEnv` with the first scheduled turn failing terminally. -/
def envC2w : RunEnv :=
  { baseEnv with turnError := fun i => if i == 0 then some "RateLimitError" else none }

/-- Witness for `C2_failed_turn_contained` at a concrete failed turn. -/
theorem C2_failed_turn_contained_witness :
    ((memberSpeak envC2w "Bob" 0 initialSt).1.filter isWarnEvent).length = 1 :=
  C2_failed_turn_contained.2.1 envC2w "Bob" 0 initialSt "RateLimitError" rfl (by decide)
